import Mathlib

/-!
Shallow embedding of the collections / couch-kvstore persistence core of
ep-engine, covering `src/systemevent.cc`, the inline member functions of
`src/couch-kvstore/couch-kvstore.h`, and the metadata codec and checkpoint
behaviour exercised by `tests/module_tests/kvstore_test.cc` and
`tests/module_tests/collections/evp_store_collections_test.cc`.

Machine integers are modelled as `Nat` (values are always produced reduced
below their width, so no explicit `% 2^w` is needed for the operations
embedded here); fallible C++ code (functions that may `throw`) returns
`Except String`.
-/

namespace EpEngine

/-- The `SystemEvent` enum from `systemevent.h` (declarations only are under
`src/`): the closed set of collection-lifecycle event codes, in declaration
order. -/
inductive SystemEvent where
  | CreateCollection
  | BeginDeleteCollection
  | DeleteCollectionHard
  | DeleteCollectionSoft
  | CollectionsSeparatorChanged
deriving DecidableEq, Repr

/-- The cast `uint32_t(se)`: the numeric code stored in an item's flags field.
Modelled from the spec: `systemevent.h` is not under `src/`; the spec says
"when operation=system_event — a SystemEvent code stored in the flags field";
the codes are taken in enum declaration order starting at 0. -/
def SystemEvent.toFlags : SystemEvent → Nat
  | .CreateCollection => 0
  | .BeginDeleteCollection => 1
  | .DeleteCollectionHard => 2
  | .DeleteCollectionSoft => 3
  | .CollectionsSeparatorChanged => 4

/-- The inverse of the `SystemEvent(uint32_t)` cast used by
`SystemEventFlush::process` and friends: `none` models a flags value that is
not one of the five enumerators (the C++ switch then matches no case). -/
def SystemEvent.ofFlags : Nat → Option SystemEvent
  | 0 => some .CreateCollection
  | 1 => some .BeginDeleteCollection
  | 2 => some .DeleteCollectionHard
  | 3 => some .DeleteCollectionSoft
  | 4 => some .CollectionsSeparatorChanged
  | _ => none

/-- The `DocNamespace` tag (spec §3: DefaultCollection | Collections | System). -/
inductive DocNamespace where
  | DefaultCollection
  | Collections
  | System
deriving DecidableEq, Repr

/-- The `queue_op` enum: the operation tag of a queued item (the members exercised by
the embedded code: mutation, deletion, system event). -/
inductive QueueOp where
  | set
  | del
  | system_event
deriving DecidableEq, Repr

/-- The `Item` attributes used by the embedded code (spec §3: key, namespace,
CAS, expiry, flags, bySeqno, operation; `deleted` is the tombstone bit and
`shouldReplicate` the replication predicate read by
`SystemEventReplicate::process` — `item.h` is not under `src/`, so the
attribute set is taken from the spec's Item data model). -/
structure Item where
  key : String
  ns : DocNamespace
  flags : Nat
  exptime : Nat
  nbytes : Nat
  bySeqno : Int
  operation : QueueOp
  deleted : Bool
  shouldReplicate : Bool
deriving DecidableEq, Repr

/-- Modelled from the spec: `collections/collections_types.h` is not under
`src/`; spec §6 SystemEvent key grammar, create prefix. -/
def Collections.CreateEventKey : String := "$collections::create:"

/-- Modelled from the spec: `collections/collections_types.h` is not under
`src/`; spec §6 SystemEvent key grammar, delete prefix. -/
def Collections.DeleteEventKey : String := "$collections::delete:"

/-- Modelled from the spec: `collections/collections_types.h` is not under
`src/`; spec §6 SystemEvent key grammar, fixed separator-changed key. -/
def Collections.SeparatorChangedKey : String := "$collections::separator"

set_option linter.unusedVariables false in
/-- The key computed by the `switch (se)` in `SystemEventFactory::make`
(`src/systemevent.cc:29-68`). The C++ switch assigns `key` in each case, but
the `DeleteCollectionHard` and `DeleteCollectionSoft` cases have no `break`:
control falls through each following case body until the `break` in
`CollectionsSeparatorChanged`, so their earlier assignments are overwritten.
The shadowed `let key` bindings below reproduce that assignment sequence. -/
def SystemEventFactory.makeKey (se : SystemEvent) (keyExtra : String) : String :=
  match se with
  | .CreateCollection =>
    -- assigns, then `break`
    Collections.CreateEventKey ++ keyExtra
  | .BeginDeleteCollection =>
    -- assigns, then `break`
    Collections.DeleteEventKey ++ keyExtra
  | .DeleteCollectionHard =>
    -- assigns, no `break`: execution continues into the Soft case body,
    -- then into the SeparatorChanged case body, whose `break` exits
    let key := Collections.CreateEventKey ++ keyExtra
    let key := Collections.CreateEventKey ++ keyExtra
    let key := Collections.SeparatorChangedKey
    key
  | .DeleteCollectionSoft =>
    -- assigns, no `break`: execution continues into the SeparatorChanged
    -- case body, whose `break` exits
    let key := Collections.CreateEventKey ++ keyExtra
    let key := Collections.SeparatorChangedKey
    key
  | .CollectionsSeparatorChanged =>
    -- assigns, then `break`
    Collections.SeparatorChangedKey

/-- Embedding of `SystemEventFactory::make` (`src/systemevent.cc:24-81`): builds the marker
`Item` with the computed key, `DocNamespace::System`, the event code as flags,
zero expiry and `itemSize` bytes; `setBySeqno` is applied only when the
optional seqno is present (the fresh-Item default seqno is `-1`, from the
spec's Item model since `item.h` is not under `src/`). -/
def SystemEventFactory.make (se : SystemEvent) (keyExtra : String)
    (itemSize : Nat) (seqno : Option Int) : Item :=
  { key := SystemEventFactory.makeKey se keyExtra
    ns := DocNamespace.System
    flags := se.toFlags
    exptime := 0
    nbytes := itemSize
    bySeqno := match seqno with | some s => s | none => -1
    operation := QueueOp.system_event
    deleted := false
    shouldReplicate := true }

/-- The `ProcessStatus` returned by the SystemEvent flush/replicate filters. -/
inductive ProcessStatus where
  | Continue
  | Skip
deriving DecidableEq, Repr

/-- The state of a `SystemEventFlush`: the candidate collections-manifest
item saved while processing one flush batch
(`src/src/couch-kvstore` flush policy, `src/systemevent.cc`). -/
structure SystemEventFlush where
  collectionManifestItem : Option Item
deriving DecidableEq, Repr

/-- Embedding of `SystemEventFlush::getCollectionsManifestItem`
(`src/systemevent.cc:135-137`). -/
def SystemEventFlush.getCollectionsManifestItem (s : SystemEventFlush) :
    Option Item :=
  s.collectionManifestItem

/-- Embedding of `SystemEventFlush::saveCollectionsManifestItem`
(`src/systemevent.cc:139-147`): keep the incoming item only when nothing is
saved yet or its bySeqno is strictly higher than the saved one's. -/
def SystemEventFlush.saveCollectionsManifestItem (s : SystemEventFlush)
    (item : Item) : SystemEventFlush :=
  match s.collectionManifestItem with
  | some cur =>
    if item.bySeqno > cur.bySeqno then { collectionManifestItem := some item }
    else s
  | none => { collectionManifestItem := some item }

/-- Embedding of `SystemEventFlush::process` (`src/systemevent.cc:83-104`): non-system
items pass through; system events update the saved manifest item, and all but
`BeginDeleteCollection` also flush a marker document (`Continue`); a flags
value outside the enum throws `std::invalid_argument`. -/
def SystemEventFlush.process (s : SystemEventFlush) (item : Item) :
    Except String (SystemEventFlush × ProcessStatus) :=
  if item.operation ≠ QueueOp.system_event then
    Except.ok (s, ProcessStatus.Continue)
  else
    match SystemEvent.ofFlags item.flags with
    | some SystemEvent.CreateCollection
    | some SystemEvent.DeleteCollectionHard
    | some SystemEvent.DeleteCollectionSoft
    | some SystemEvent.CollectionsSeparatorChanged =>
      Except.ok (s.saveCollectionsManifestItem item, ProcessStatus.Continue)
    | some SystemEvent.BeginDeleteCollection =>
      Except.ok (s.saveCollectionsManifestItem item, ProcessStatus.Skip)
    | none =>
      Except.error "SystemEventFlush::process unknown event"

/-- Embedding of `SystemEventFlush::isUpsert` (`src/systemevent.cc:106-133`): for system
events, Create/SeparatorChanged upsert, Hard/Soft delete, BeginDelete throws;
unknown flags fall through the switch to the final throw; non-system items
answer `!isDeleted()`. -/
def SystemEventFlush.isUpsert (item : Item) : Except String Bool :=
  if item.operation = QueueOp.system_event then
    match SystemEvent.ofFlags item.flags with
    | some SystemEvent.CreateCollection
    | some SystemEvent.CollectionsSeparatorChanged =>
      Except.ok true
    | some SystemEvent.BeginDeleteCollection =>
      Except.error
        "SystemEventFlush::isUpsert event should neither delete or upsert"
    | some SystemEvent.DeleteCollectionHard
    | some SystemEvent.DeleteCollectionSoft =>
      Except.ok false
    | none =>
      Except.error "SystemEventFlush::isUpsert unknown event"
  else
    Except.ok (!item.deleted)

/-- Embedding of `SystemEventReplicate::process` (`src/systemevent.cc:149-170`): items that
should not replicate are skipped; replicating non-system items continue;
Create/BeginDelete/SeparatorChanged continue; Hard/Soft deletes skip; a flags
value outside the enum falls out of the switch to the final `return Skip`. -/
def SystemEventReplicate.process (item : Item) : ProcessStatus :=
  if item.shouldReplicate then
    if item.operation ≠ QueueOp.system_event then
      ProcessStatus.Continue
    else
      match SystemEvent.ofFlags item.flags with
      | some SystemEvent.CreateCollection
      | some SystemEvent.BeginDeleteCollection
      | some SystemEvent.CollectionsSeparatorChanged =>
        ProcessStatus.Continue
      | some SystemEvent.DeleteCollectionHard
      | some SystemEvent.DeleteCollectionSoft =>
        ProcessStatus.Skip
      | none => ProcessStatus.Skip
  else
    ProcessStatus.Skip

/-- A pending write request, as constructed by `CouchRequest` in
`src/couch-kvstore/couch-kvstore.h` (the item to persist and whether it is a
deletion). -/
structure CouchRequest where
  item : Item
  del : Bool
deriving DecidableEq, Repr

/-- The `CouchKVStore` state touched by the inline members of
`src/couch-kvstore/couch-kvstore.h`: the read-only marker (`isReadOnly()`
from the `KVStore` base), the `intransaction` flag and the `pendingReqsQ`
vector (`couch-kvstore.h:577-578`). -/
structure CouchKVStore where
  readOnly : Bool
  intransaction : Bool
  pendingReqsQ : List CouchRequest
deriving DecidableEq, Repr

/-- Embedding of `CouchKVStore::begin` (`couch-kvstore.h:200-207`): throws a logic error on
a read-only object; otherwise sets `intransaction = true` and returns it.
There is no check of whether a transaction is already open. -/
def CouchKVStore.begin (s : CouchKVStore) :
    Except String (CouchKVStore × Bool) :=
  if s.readOnly then
    Except.error "CouchKVStore::begin: Not valid on a read-only object."
  else
    Except.ok ({ s with intransaction := true }, true)

/-- Embedding of `CouchKVStore::rollback` (`couch-kvstore.h:222-230`): throws a logic error
on a read-only object; otherwise clears `intransaction` when set. The body
touches no other member: in particular `pendingReqsQ` is left as it is. -/
def CouchKVStore.rollback (s : CouchKVStore) : Except String CouchKVStore :=
  if s.readOnly then
    Except.error "CouchKVStore::rollback: Not valid on a read-only object."
  else if s.intransaction then
    Except.ok { s with intransaction := false }
  else
    Except.ok s

/-- Modelled from the spec: `couch-kvstore.cc` (the out-of-line definition of
`CouchKVStore::set`) is not under `src/`; spec §4.1: "`set(item, cb)` —
enqueue mutation or deletion into the current batch", the batch being the
`pendingReqsQ` declared at `couch-kvstore.h:577`. -/
def CouchKVStore.set (s : CouchKVStore) (itm : Item) : CouchKVStore :=
  { s with pendingReqsQ := s.pendingReqsQ ++ [{ item := itm, del := false }] }

/-- Little-endian byte list of width `w` for a value `n` (each byte reduced
`% 256`; the value is implicitly reduced `% 2^(8*w)`). -/
def leBytes : Nat → Nat → List Nat
  | 0, _ => []
  | w + 1, n => n % 256 :: leBytes w (n / 256)

/-- Big-endian byte list of width `w` for a value `n`. -/
def beBytes (w n : Nat) : List Nat := (leBytes w n).reverse

/-- The value of a byte list interpreted big-endian (network order). -/
def beVal (bs : List Nat) : Nat := bs.foldl (fun acc b => acc * 256 + b) 0

/-- The value of a byte list interpreted little-endian (host order on the
x86 hosts the tests run on). -/
def leVal (bs : List Nat) : Nat := bs.foldr (fun b acc => b + acc * 256) 0

/-- The function `htonll` on a little-endian host: byte-swap of a 64-bit value. -/
def htonll (n : Nat) : Nat := beVal (leBytes 8 n)

/-- The function `htonl` on a little-endian host: byte-swap of a 32-bit value. -/
def htonl (n : Nat) : Nat := beVal (leBytes 4 n)

/-- The metadata on-disk layout versions (spec §3 MetaData). -/
inductive MetaVersion where
  | V0
  | V1
  | V2
deriving DecidableEq, Repr

/-- Embedding of `MetaData::getMetaDataSize` (sizes locked down by the
`CouchKVStoreMetaData.basic` test): V0 = 16, V1 = 16+2, V2 = 16+2+1. -/
def MetaData.getMetaDataSize : MetaVersion → Nat
  | MetaVersion.V0 => 16
  | MetaVersion.V1 => 16 + 2
  | MetaVersion.V2 => 16 + 2 + 1

/-- Modelled from the spec: `couch-kvstore-metadata.h` is not under `src/`;
spec §3/§4.8: the decoded record exposes cas/expiry/flags/datatype/flexCode
uniformly and tracks `versionInitialisedFrom`. -/
structure MetaData where
  cas : Nat
  expiry : Nat
  flags : Nat
  flexCode : Nat
  datatype : Nat
  versionInitialisedFrom : MetaVersion
deriving DecidableEq, Repr

/-- Modelled from the spec: decode of the 16 V0 bytes (spec §3: "V0 (16
bytes): CAS, expiry, flags"; spec §4.8: "CAS is stored big-endian on disk …
the codec performs the swap", expiry likewise network order per the
`fuzzV0` test expectation `htonl`, flags raw host order; a V0 record has no
extension bytes, so flexCode and datatype are zero = raw). -/
def MetaData.decodeV0 (buf : List Nat) : MetaData :=
  { cas := beVal (buf.take 8)
    expiry := beVal ((buf.drop 8).take 4)
    flags := leVal ((buf.drop 12).take 4)
    flexCode := 0
    datatype := 0
    versionInitialisedFrom := MetaVersion.V0 }

/-- Modelled from the spec: decode of the 18 V1 bytes (spec §3: "V1 (18
bytes): V0 + two extension bytes; by convention ext1 = flex marker, ext2 =
datatype"). -/
def MetaData.decodeV1 (buf : List Nat) : MetaData :=
  { cas := beVal (buf.take 8)
    expiry := beVal ((buf.drop 8).take 4)
    flags := leVal ((buf.drop 12).take 4)
    flexCode := ((buf.drop 16).take 1).headD 0
    datatype := ((buf.drop 17).take 1).headD 0
    versionInitialisedFrom := MetaVersion.V1 }

/-- Modelled from the spec: `MetaDataFactory::createMetaData` is not under
`src/`; spec §4.8: classify `buf.size` — 16 reads the V0 layout, 18 reads V1,
19 reads V1 with the trailing legacy byte dropped silently, any other size is
fatal (`std::logic_error`, per the `CouchKVStoreMetaData.overlay` test). -/
def MetaDataFactory.createMetaData (buf : List Nat) : Except String MetaData :=
  if buf.length = 16 then
    Except.ok (MetaData.decodeV0 buf)
  else if buf.length = 18 then
    Except.ok (MetaData.decodeV1 buf)
  else if buf.length = 19 then
    Except.ok (MetaData.decodeV1 (buf.take 18))
  else
    Except.error "MetaDataFactory::createMetaData unknown size"

/-- Modelled from the spec: the write path always projects to the V1 layout
(spec §3: "Writes always emit V1"; spec §4.8: "Writes always project to V1 on
disk (18 bytes)"), cas and expiry stored network order, flags raw, then the
two extension bytes. -/
def MetaData.encode (m : MetaData) : List Nat :=
  beBytes 8 m.cas ++ beBytes 4 m.expiry ++ leBytes 4 m.flags ++
    [m.flexCode % 256, m.datatype % 256]

/-- The 16 bytes written by `MockCouchRequest::writeMetaData(meta, sizeofV0)`
in the `fuzzV0` test: a raw memcpy of the packed host(little-endian) fields
cas, expiry, flags. -/
def rawV0Bytes (cas expiry flags : Nat) : List Nat :=
  leBytes 8 cas ++ leBytes 4 expiry ++ leBytes 4 flags

/-- An operation arriving at a vbucket checkpoint, as driven by the
`CollectionsThreadTest` threads: a collection create / begin-delete manifest
event, or a set of key `k` in collection `c`. -/
inductive CkptOp where
  | create (c : String)
  | beginDelete (c : String)
  | setKey (c : String) (k : String)
deriving DecidableEq, Repr

/-- An entry queued in a checkpoint: the operation and its bySeqno. -/
structure CkptEntry where
  op : CkptOp
  seqno : Nat
deriving DecidableEq, Repr

/-- The vbucket state relevant to checkpoint ordering: the currently open
collections, the high seqno, and the queued checkpoint entries. -/
structure VBucketCkpt where
  openCollections : List String
  highSeqno : Nat
  entries : List CkptEntry
deriving DecidableEq, Repr

/-- Modelled from the spec: the checkpoint manager and the vbucket manifest
(`collections/vbucket_manifest.h`, `checkpoint.h`) are not under `src/`. Per
spec §6 "A key validates iff the substring up to the first separator is a
currently-open collection" and §3 "bySeqno is strictly increasing", a set in
collection `c` is accepted (queued with the next seqno) only while `c` is
open, otherwise it is rejected (`unknown_collection`, per the test's
`store_item` expectation); a create event for a not-yet-open collection opens
it and queues the event, a begin-delete for an open collection closes it and
queues the event; the manifest update holds the manifest lock against sets,
so each accepted operation is queued atomically. -/
def VBucketCkpt.apply (st : VBucketCkpt) (op : CkptOp) : VBucketCkpt :=
  match op with
  | CkptOp.create c =>
    if c ∈ st.openCollections then st
    else
      { openCollections := c :: st.openCollections
        highSeqno := st.highSeqno + 1
        entries := st.entries ++ [{ op := op, seqno := st.highSeqno + 1 }] }
  | CkptOp.beginDelete c =>
    if c ∈ st.openCollections then
      { openCollections := st.openCollections.erase c
        highSeqno := st.highSeqno + 1
        entries := st.entries ++ [{ op := op, seqno := st.highSeqno + 1 }] }
    else st
  | CkptOp.setKey c _ =>
    if c ∈ st.openCollections then
      { openCollections := st.openCollections
        highSeqno := st.highSeqno + 1
        entries := st.entries ++ [{ op := op, seqno := st.highSeqno + 1 }] }
    else st

/-- The initial vbucket state of the model: no open collections, empty
checkpoint. -/
def VBucketCkpt.init : VBucketCkpt :=
  { openCollections := [], highSeqno := 0, entries := [] }

/-- One step of the scan performed by the `checkpoint_consistency` test for a
tracked collection `c`: the first component is the `open` flag (set by a
create event on `c`, cleared by a begin-delete on `c`), the second records
whether every set in `c` seen so far found `open = true`. -/
def ckptScanStep (c : String) (st : Bool × Bool) (e : CkptEntry) :
    Bool × Bool :=
  match e.op with
  | CkptOp.create c' => if c' = c then (true, st.2) else st
  | CkptOp.beginDelete c' => if c' = c then (false, st.2) else st
  | CkptOp.setKey c' _ => if c' = c then (st.1, st.2 && st.1) else st

/-- The `checkpoint_consistency` test's validation for collection `c`: scan
the checkpoint in order starting with `open = false`; true iff no set in `c`
is observed while `c` is not open. -/
def checkpointConsistent (c : String) (entries : List CkptEntry) : Bool :=
  (entries.foldl (ckptScanStep c) (false, true)).2

/-- Strictly increasing seqnos along a checkpoint, as asserted by
`EXPECT_LT(seqno.value(), item->getBySeqno())` in the test. -/
def seqnosStrictlyIncreasing (entries : List CkptEntry) : Prop :=
  List.Chain' (fun a b => a.seqno < b.seqno) entries

/-- Feeding one batch of queued items through `SystemEventFlush::process` in
order (the flusher's per-batch loop): stops with the thrown error if any
single `process` call throws. -/
def SystemEventFlush.processAll (s : SystemEventFlush) (items : List Item) :
    Except String SystemEventFlush :=
  match items with
  | [] => Except.ok s
  | i :: rest =>
    match s.process i with
    | Except.ok (s1, _) => s1.processAll rest
    | Except.error e => Except.error e

/-- The induction invariant tying a vbucket state to the
`checkpoint_consistency` scan for a tracked collection `c`: the open
collections are duplicate-free, every queued seqno is at most the high seqno,
queued seqnos strictly increase, and the scan over the queued entries ends
with its `open` flag agreeing with the manifest and no violation recorded. -/
def CkptInv (c : String) (st : VBucketCkpt) : Prop :=
  st.openCollections.Nodup ∧
  (∀ e ∈ st.entries, e.seqno ≤ st.highSeqno) ∧
  List.Chain' (fun a b => a.seqno < b.seqno) st.entries ∧
  st.entries.foldl (ckptScanStep c) (false, true) =
    (decide (c ∈ st.openCollections), true)

/-! ## Helper lemmas -/

lemma SystemEvent.ofFlags_toFlags (se : SystemEvent) :
    SystemEvent.ofFlags se.toFlags = some se := by
  cases se <;> rfl

/-! ## C1 -/

/-- C1: the claim states that `SystemEventFactory::make` applied to
`DeleteCollectionHard` or `DeleteCollectionSoft` with key-extra `n` returns an
item keyed `$collections::create:` ++ n. The code's own comments state that
intent ("uses CreateEventKey because we are deleting the create item"), but
both cases lack a `break`, so control falls through into the
`CollectionsSeparatorChanged` case and the key assignment is overwritten with
the fixed separator key. This theorem evaluates the code at the failing input
`keyExtra = "meat"`: the produced key is `$collections::separator`, not
`$collections::create:meat` (namespace and flags do come out as the claim
says). -/
theorem make_delete_collection_key_is_separator_key :
    (SystemEventFactory.make SystemEvent.DeleteCollectionHard "meat" 0
      none).key = Collections.SeparatorChangedKey ∧
    (SystemEventFactory.make SystemEvent.DeleteCollectionSoft "meat" 0
      none).key = Collections.SeparatorChangedKey ∧
    (SystemEventFactory.make SystemEvent.DeleteCollectionHard "meat" 0
      none).key ≠ Collections.CreateEventKey ++ "meat" ∧
    (SystemEventFactory.make SystemEvent.DeleteCollectionHard "meat" 0
      none).ns = DocNamespace.System ∧
    (SystemEventFactory.make SystemEvent.DeleteCollectionHard "meat" 0
      none).flags = SystemEvent.toFlags SystemEvent.DeleteCollectionHard := by
  refine ⟨rfl, rfl, ?_, rfl, rfl⟩
  decide

/-! ## C2 -/

/-- C2: `SystemEventFlush::process` returns `Continue` and leaves the saved
manifest item untouched for non-system-event items; for a system event it
hands the item to `saveCollectionsManifestItem` and returns `Skip` exactly for
`BeginDeleteCollection`, `Continue` for the other four codes. -/
theorem systemEventFlush_process_disposition (s : SystemEventFlush)
    (item : Item) :
    (item.operation ≠ QueueOp.system_event →
      SystemEventFlush.process s item = Except.ok (s, ProcessStatus.Continue)) ∧
    (∀ se : SystemEvent, item.operation = QueueOp.system_event →
      item.flags = se.toFlags →
      SystemEventFlush.process s item =
        Except.ok (s.saveCollectionsManifestItem item,
          if se = SystemEvent.BeginDeleteCollection then ProcessStatus.Skip
          else ProcessStatus.Continue)) := by
  constructor
  · intro h
    simp [SystemEventFlush.process, h]
  · intro se hop hfl
    cases se <;>
      simp [SystemEventFlush.process, hop, hfl, SystemEvent.ofFlags_toFlags]

/-- Witness for C2 at concrete inputs: a plain mutation passes through
untouched; a `BeginDeleteCollection` system event is saved and skipped. -/
theorem systemEventFlush_process_disposition_witness :
    SystemEventFlush.process { collectionManifestItem := none }
        { key := "meat::beef", ns := DocNamespace.Collections, flags := 0,
          exptime := 0, nbytes := 5, bySeqno := 3,
          operation := QueueOp.set, deleted := false,
          shouldReplicate := true } =
      Except.ok ({ collectionManifestItem := none }, ProcessStatus.Continue) ∧
    SystemEventFlush.process { collectionManifestItem := none }
        (SystemEventFactory.make SystemEvent.BeginDeleteCollection "meat" 0
          (some 7)) =
      Except.ok
        ({ collectionManifestItem :=
            some (SystemEventFactory.make SystemEvent.BeginDeleteCollection
              "meat" 0 (some 7)) },
          ProcessStatus.Skip) := by
  constructor
  · exact (systemEventFlush_process_disposition _ _).1 (by decide)
  · have h := (systemEventFlush_process_disposition
      { collectionManifestItem := none }
      (SystemEventFactory.make SystemEvent.BeginDeleteCollection "meat" 0
        (some 7))).2 SystemEvent.BeginDeleteCollection rfl rfl
    simpa [SystemEventFlush.saveCollectionsManifestItem] using h

/-! ## C9 -/

/-- C9: for every item whose `shouldReplicate()` is true,
`SystemEventReplicate::process` returns `Continue` for non-system items and
for system events with code CreateCollection, BeginDeleteCollection or
CollectionsSeparatorChanged, and `Skip` for DeleteCollectionHard and
DeleteCollectionSoft. -/
theorem systemEventReplicate_process_filter (item : Item)
    (h : item.shouldReplicate = true) :
    (item.operation ≠ QueueOp.system_event →
      SystemEventReplicate.process item = ProcessStatus.Continue) ∧
    (∀ se : SystemEvent, item.operation = QueueOp.system_event →
      item.flags = se.toFlags →
      SystemEventReplicate.process item =
        match se with
        | SystemEvent.DeleteCollectionHard
        | SystemEvent.DeleteCollectionSoft => ProcessStatus.Skip
        | _ => ProcessStatus.Continue) := by
  constructor
  · intro hop
    simp [SystemEventReplicate.process, h, hop]
  · intro se hop hfl
    cases se <;>
      simp [SystemEventReplicate.process, h, hop, hfl,
        SystemEvent.ofFlags_toFlags]

/-- Witness for C9 at concrete inputs: a replicating mutation continues, a
`DeleteCollectionHard` system event is skipped. -/
theorem systemEventReplicate_process_filter_witness :
    SystemEventReplicate.process
        { key := "meat::beef", ns := DocNamespace.Collections, flags := 0,
          exptime := 0, nbytes := 5, bySeqno := 3,
          operation := QueueOp.set, deleted := false,
          shouldReplicate := true } = ProcessStatus.Continue ∧
    SystemEventReplicate.process
        (SystemEventFactory.make SystemEvent.DeleteCollectionHard "meat" 0
          (some 9)) = ProcessStatus.Skip := by
  constructor
  · exact (systemEventReplicate_process_filter _ rfl).1 (by decide)
  · exact (systemEventReplicate_process_filter
      (SystemEventFactory.make SystemEvent.DeleteCollectionHard "meat" 0
        (some 9)) rfl).2 SystemEvent.DeleteCollectionHard rfl rfl

/-! ## C10 -/

/-- C10: `SystemEventFlush::isUpsert` throws for a `BeginDeleteCollection`
system event, answers true for CreateCollection and
CollectionsSeparatorChanged, false for DeleteCollectionHard and
DeleteCollectionSoft, and `!isDeleted()` for any non-system-event item. -/
theorem systemEventFlush_isUpsert_spec (item : Item) :
    (∀ se : SystemEvent, item.operation = QueueOp.system_event →
      item.flags = se.toFlags →
      SystemEventFlush.isUpsert item =
        match se with
        | SystemEvent.CreateCollection
        | SystemEvent.CollectionsSeparatorChanged => Except.ok true
        | SystemEvent.BeginDeleteCollection =>
          Except.error
            "SystemEventFlush::isUpsert event should neither delete or upsert"
        | SystemEvent.DeleteCollectionHard
        | SystemEvent.DeleteCollectionSoft => Except.ok false) ∧
    (item.operation ≠ QueueOp.system_event →
      SystemEventFlush.isUpsert item = Except.ok (!item.deleted)) := by
  constructor
  · intro se hop hfl
    cases se <;>
      simp [SystemEventFlush.isUpsert, hop, hfl, SystemEvent.ofFlags_toFlags]
  · intro hop
    simp [SystemEventFlush.isUpsert, hop]

/-- Witness for C10 at concrete inputs: `BeginDeleteCollection` throws, a
deleted mutation answers false. -/
theorem systemEventFlush_isUpsert_spec_witness :
    SystemEventFlush.isUpsert
        (SystemEventFactory.make SystemEvent.BeginDeleteCollection "meat" 0
          (some 7)) =
      Except.error
        "SystemEventFlush::isUpsert event should neither delete or upsert" ∧
    SystemEventFlush.isUpsert
        { key := "meat::beef", ns := DocNamespace.Collections, flags := 0,
          exptime := 0, nbytes := 5, bySeqno := 3,
          operation := QueueOp.del, deleted := true,
          shouldReplicate := true } = Except.ok false := by
  constructor
  · exact (systemEventFlush_isUpsert_spec
      (SystemEventFactory.make SystemEvent.BeginDeleteCollection "meat" 0
        (some 7))).1 SystemEvent.BeginDeleteCollection rfl rfl
  · exact (systemEventFlush_isUpsert_spec _).2 (by decide)

/-! ## C4 -/

/-- C4 counterexample: the claim states `CouchKVStore::begin` fails when a
transaction is already open, but the inline body only checks `isReadOnly()`:
on a read/write store that is already in a transaction (`intransaction =
true`), `begin` still succeeds and returns true — there is no double-begin
detection. -/
theorem begin_succeeds_despite_open_transaction :
    CouchKVStore.begin
        { readOnly := false, intransaction := true, pendingReqsQ := [] } =
      Except.ok
        ({ readOnly := false, intransaction := true, pendingReqsQ := [] },
          true) := by
  rfl

/-- C4 amended: `CouchKVStore::begin` fails (throws a logic error) exactly
when called on a read-only instance; on a read/write instance it returns true
and marks the store in-transaction, whether or not a transaction is already
open. -/
theorem begin_readonly_check_only (s : CouchKVStore) :
    (s.readOnly = true →
      CouchKVStore.begin s =
        Except.error "CouchKVStore::begin: Not valid on a read-only object.") ∧
    (s.readOnly = false →
      CouchKVStore.begin s =
        Except.ok ({ s with intransaction := true }, true)) := by
  constructor
  · intro h
    simp [CouchKVStore.begin, h]
  · intro h
    simp [CouchKVStore.begin, h]

/-- Witness for the amended C4 at concrete stores: a read-only store throws,
a read/write store (even one already in a transaction) succeeds. -/
theorem begin_readonly_check_only_witness :
    CouchKVStore.begin
        { readOnly := true, intransaction := false, pendingReqsQ := [] } =
      Except.error "CouchKVStore::begin: Not valid on a read-only object." ∧
    CouchKVStore.begin
        { readOnly := false, intransaction := false, pendingReqsQ := [] } =
      Except.ok
        ({ readOnly := false, intransaction := true, pendingReqsQ := [] },
          true) := by
  constructor
  · exact (begin_readonly_check_only _).1 rfl
  · exact (begin_readonly_check_only
      { readOnly := false, intransaction := false, pendingReqsQ := [] }).2 rfl

/-! ## C5 -/

/-- C5 counterexample: the claim states that after `rollback()` the queue of
pending write requests accumulated by `set` since `begin()` is empty. On a
fresh read/write store, `begin` then one `set` then `rollback` leaves the
store out of transaction but `pendingReqsQ` still holds the enqueued request:
the inline `rollback` body only clears `intransaction`. -/
theorem rollback_leaves_pending_request :
    (do
      let p ← CouchKVStore.begin
        { readOnly := false, intransaction := false, pendingReqsQ := [] }
      CouchKVStore.rollback (p.1.set
        { key := "meat::beef", ns := DocNamespace.Collections, flags := 0,
          exptime := 0, nbytes := 5, bySeqno := 3,
          operation := QueueOp.set, deleted := false,
          shouldReplicate := true })) =
      Except.ok
        { readOnly := false, intransaction := false,
          pendingReqsQ :=
            [{ item :=
                { key := "meat::beef", ns := DocNamespace.Collections,
                  flags := 0, exptime := 0, nbytes := 5, bySeqno := 3,
                  operation := QueueOp.set, deleted := false,
                  shouldReplicate := true },
               del := false }] } ∧
    ([{ item :=
          { key := "meat::beef", ns := DocNamespace.Collections,
            flags := 0, exptime := 0, nbytes := 5, bySeqno := 3,
            operation := QueueOp.set, deleted := false,
            shouldReplicate := true },
        del := false }] : List CouchRequest) ≠ [] := by
  exact ⟨rfl, by decide⟩

/-- C5 amended: after `CouchKVStore::rollback` on a read/write store that is
in a transaction, the store is no longer in-transaction; the queue of pending
write requests is left unchanged (it is not cleared by `rollback`). -/
theorem rollback_clears_transaction_keeps_queue (s : CouchKVStore)
    (h1 : s.readOnly = false) (h2 : s.intransaction = true) :
    ∃ t : CouchKVStore, CouchKVStore.rollback s = Except.ok t ∧
      t.intransaction = false ∧ t.pendingReqsQ = s.pendingReqsQ := by
  refine ⟨{ s with intransaction := false }, ?_, rfl, rfl⟩
  simp [CouchKVStore.rollback, h1, h2]

/-- Witness for the amended C5 at a concrete in-transaction store holding one
pending request. -/
theorem rollback_clears_transaction_keeps_queue_witness :
    ∃ t : CouchKVStore,
      CouchKVStore.rollback
        { readOnly := false, intransaction := true,
          pendingReqsQ :=
            [{ item :=
                { key := "meat::beef", ns := DocNamespace.Collections,
                  flags := 0, exptime := 0, nbytes := 5, bySeqno := 3,
                  operation := QueueOp.set, deleted := false,
                  shouldReplicate := true },
               del := false }] } = Except.ok t ∧
      t.intransaction = false ∧
      t.pendingReqsQ =
        [{ item :=
            { key := "meat::beef", ns := DocNamespace.Collections,
              flags := 0, exptime := 0, nbytes := 5, bySeqno := 3,
              operation := QueueOp.set, deleted := false,
              shouldReplicate := true },
           del := false }] := by
  exact rollback_clears_transaction_keeps_queue _ rfl rfl

/-! ## C7 -/

lemma leBytes_length (w : Nat) : ∀ n : Nat, (leBytes w n).length = w := by
  induction w with
  | zero => intro n; rfl
  | succ w ih => intro n; simp [leBytes, ih]

lemma MetaData.encode_length (m : MetaData) : m.encode.length = 18 := by
  simp [MetaData.encode, beBytes, leBytes_length]

/-- C7: `MetaDataFactory` classifies a metadata buffer by its size — a
16-byte buffer is read as the V0 layout, an 18-byte buffer as V1, a 19-byte
buffer as V1 with the trailing legacy byte dropped; a buffer of size 15 or of
size greater than 19 fails; and a write always emits the 18-byte V1 layout,
which reads back as V1. -/
theorem metaDataFactory_size_classification (buf : List Nat) (m : MetaData) :
    (buf.length = 16 →
      MetaDataFactory.createMetaData buf = Except.ok (MetaData.decodeV0 buf) ∧
      (MetaData.decodeV0 buf).versionInitialisedFrom = MetaVersion.V0) ∧
    (buf.length = 18 →
      MetaDataFactory.createMetaData buf = Except.ok (MetaData.decodeV1 buf) ∧
      (MetaData.decodeV1 buf).versionInitialisedFrom = MetaVersion.V1) ∧
    (buf.length = 19 →
      MetaDataFactory.createMetaData buf =
        Except.ok (MetaData.decodeV1 (buf.take 18)) ∧
      (MetaData.decodeV1 (buf.take 18)).versionInitialisedFrom =
        MetaVersion.V1) ∧
    (buf.length = 15 ∨ buf.length > 19 →
      ∃ e : String, MetaDataFactory.createMetaData buf = Except.error e) ∧
    m.encode.length = MetaData.getMetaDataSize MetaVersion.V1 ∧
    MetaDataFactory.createMetaData m.encode =
      Except.ok (MetaData.decodeV1 m.encode) := by
  refine ⟨?_, ?_, ?_, ?_, ?_, ?_⟩
  · intro h
    exact ⟨by simp [MetaDataFactory.createMetaData, h], rfl⟩
  · intro h
    exact ⟨by simp [MetaDataFactory.createMetaData, h], rfl⟩
  · intro h
    exact ⟨by simp [MetaDataFactory.createMetaData, h], rfl⟩
  · intro h
    refine ⟨"MetaDataFactory::createMetaData unknown size", ?_⟩
    have h16 : buf.length ≠ 16 := by omega
    have h18 : buf.length ≠ 18 := by omega
    have h19 : buf.length ≠ 19 := by omega
    simp [MetaDataFactory.createMetaData, h16, h18, h19]
  · exact m.encode_length
  · simp [MetaDataFactory.createMetaData, m.encode_length]

/-- Witness for C7 at concrete buffers of sizes 16, 18, 19, 15 and 20, and a
concrete record written through `encode`. -/
theorem metaDataFactory_size_classification_witness :
    (MetaDataFactory.createMetaData (List.replicate 16 0) =
        Except.ok (MetaData.decodeV0 (List.replicate 16 0)) ∧
      (MetaData.decodeV0 (List.replicate 16 0)).versionInitialisedFrom =
        MetaVersion.V0) ∧
    (MetaDataFactory.createMetaData (List.replicate 18 0) =
        Except.ok (MetaData.decodeV1 (List.replicate 18 0)) ∧
      (MetaData.decodeV1 (List.replicate 18 0)).versionInitialisedFrom =
        MetaVersion.V1) ∧
    (MetaDataFactory.createMetaData (List.replicate 19 0) =
        Except.ok (MetaData.decodeV1 ((List.replicate 19 0).take 18)) ∧
      (MetaData.decodeV1
        ((List.replicate 19 0).take 18)).versionInitialisedFrom =
        MetaVersion.V1) ∧
    (∃ e : String, MetaDataFactory.createMetaData (List.replicate 15 0) =
      Except.error e) ∧
    (∃ e : String, MetaDataFactory.createMetaData (List.replicate 20 0) =
      Except.error e) ∧
    ({ cas := 1, expiry := 2, flags := 3, flexCode := 4, datatype := 5,
       versionInitialisedFrom := MetaVersion.V1 : MetaData }).encode.length =
      MetaData.getMetaDataSize MetaVersion.V1 := by
  refine ⟨?_, ?_, ?_, ?_, ?_, ?_⟩
  · exact (metaDataFactory_size_classification (List.replicate 16 0)
      { cas := 1, expiry := 2, flags := 3, flexCode := 4, datatype := 5,
        versionInitialisedFrom := MetaVersion.V1 }).1 (by decide)
  · exact (metaDataFactory_size_classification (List.replicate 18 0)
      { cas := 1, expiry := 2, flags := 3, flexCode := 4, datatype := 5,
        versionInitialisedFrom := MetaVersion.V1 }).2.1 (by decide)
  · exact (metaDataFactory_size_classification (List.replicate 19 0)
      { cas := 1, expiry := 2, flags := 3, flexCode := 4, datatype := 5,
        versionInitialisedFrom := MetaVersion.V1 }).2.2.1 (by decide)
  · exact (metaDataFactory_size_classification (List.replicate 15 0)
      { cas := 1, expiry := 2, flags := 3, flexCode := 4, datatype := 5,
        versionInitialisedFrom := MetaVersion.V1 }).2.2.2.1 (Or.inl (by decide))
  · exact (metaDataFactory_size_classification (List.replicate 20 0)
      { cas := 1, expiry := 2, flags := 3, flexCode := 4, datatype := 5,
        versionInitialisedFrom := MetaVersion.V1 }).2.2.2.1 (Or.inr (by decide))
  · exact (metaDataFactory_size_classification (List.replicate 16 0)
      { cas := 1, expiry := 2, flags := 3, flexCode := 4, datatype := 5,
        versionInitialisedFrom := MetaVersion.V1 }).2.2.2.2.1

/-! ## C8 -/

/-- C8: persisting a raw 16-byte V0 metadata record holding
CAS = 0xF00FCAFE11225566, expiry = 0xAA00BB11 and flags = 0x01020304 (a raw
memcpy of the little-endian host fields, as `MockCouchRequest::writeMetaData`
does in the `fuzzV0` test) and reading it back through the codec yields
CAS = htonll(0xF00FCAFE11225566) and expiry = htonl(0xAA00BB11) — the stored
bytes are interpreted big-endian, so the values come back byte-swapped —
while flags are returned unchanged and the datatype is raw (0). -/
theorem v0_read_byteswaps_cas_and_expiry :
    MetaDataFactory.createMetaData
        (rawV0Bytes 0xF00FCAFE11225566 0xAA00BB11 0x01020304) =
      Except.ok
        { cas := htonll 0xF00FCAFE11225566
          expiry := htonl 0xAA00BB11
          flags := 0x01020304
          flexCode := 0
          datatype := 0
          versionInitialisedFrom := MetaVersion.V0 } := by
  rfl

/-! ## C3 -/

lemma saveCollectionsManifestItem_step (s : SystemEventFlush) (i : Item) :
    ∃ m : Item,
      (s.saveCollectionsManifestItem i).collectionManifestItem = some m ∧
      (m = i ∨ s.collectionManifestItem = some m) ∧
      i.bySeqno ≤ m.bySeqno ∧
      (∀ cur : Item, s.collectionManifestItem = some cur →
        cur.bySeqno ≤ m.bySeqno) := by
  cases h : s.collectionManifestItem with
  | none =>
    refine ⟨i, ?_, Or.inl rfl, le_refl _, ?_⟩
    · simp [SystemEventFlush.saveCollectionsManifestItem, h]
    · intro cur hc
      exact Option.noConfusion hc
  | some cur =>
    by_cases hlt : i.bySeqno > cur.bySeqno
    · refine ⟨i, ?_, Or.inl rfl, le_refl _, ?_⟩
      · simp [SystemEventFlush.saveCollectionsManifestItem, h, hlt]
      · intro c hc
        have hcc : cur = c := Option.some.inj hc
        exact hcc ▸ le_of_lt hlt
    · refine ⟨cur, ?_, Or.inr rfl, le_of_not_lt hlt, ?_⟩
      · simp [SystemEventFlush.saveCollectionsManifestItem, h, hlt]
      · intro c hc
        have hcc : cur = c := Option.some.inj hc
        exact hcc ▸ le_refl _

lemma foldSave_keeps_max (items : List Item) :
    ∀ s : SystemEventFlush, items ≠ [] →
    ∃ m : Item,
      (items.foldl SystemEventFlush.saveCollectionsManifestItem
        s).collectionManifestItem = some m ∧
      (m ∈ items ∨ s.collectionManifestItem = some m) ∧
      (∀ i ∈ items, i.bySeqno ≤ m.bySeqno) ∧
      (∀ cur : Item, s.collectionManifestItem = some cur →
        cur.bySeqno ≤ m.bySeqno) := by
  induction items with
  | nil => intro s h; exact absurd rfl h
  | cons i rest ih =>
    intro s _
    obtain ⟨m1, hm1, hmem1, hle1, hcur1⟩ := saveCollectionsManifestItem_step s i
    by_cases hr : rest = []
    · subst hr
      refine ⟨m1, by simpa using hm1, ?_, ?_, hcur1⟩
      · rcases hmem1 with h | h
        · exact Or.inl (by simp [h])
        · exact Or.inr h
      · intro j hj
        simp only [List.mem_singleton] at hj
        subst hj
        exact hle1
    · obtain ⟨m, hm, hmem, hle, hcur⟩ :=
        ih (s.saveCollectionsManifestItem i) hr
      refine ⟨m, by simpa using hm, ?_, ?_, ?_⟩
      · rcases hmem with h | h
        · exact Or.inl (List.mem_cons_of_mem _ h)
        · rw [hm1] at h
          simp only [Option.some.injEq] at h
          rcases hmem1 with h1 | h1
          · exact Or.inl (by simp [← h, h1])
          · exact Or.inr (h ▸ h1)
      · intro j hj
        rcases List.mem_cons.mp hj with h | h
        · subst h
          exact le_trans hle1 (hcur m1 hm1)
        · exact hle j h
      · intro cur hc
        exact le_trans (hcur1 cur hc) (hcur m1 hm1)

lemma processAll_cons (s s1 : SystemEventFlush) (i : Item)
    (rest : List Item) (st : ProcessStatus)
    (h : s.process i = Except.ok (s1, st)) :
    s.processAll (i :: rest) = s1.processAll rest := by
  simp only [SystemEventFlush.processAll]
  rw [h]

lemma processAll_eq_foldSave (items : List Item) :
    ∀ s : SystemEventFlush,
    (∀ i ∈ items, i.operation = QueueOp.system_event ∧
      (SystemEvent.ofFlags i.flags).isSome) →
    SystemEventFlush.processAll s items =
      Except.ok
        (items.foldl SystemEventFlush.saveCollectionsManifestItem s) := by
  induction items with
  | nil => intro s _; rfl
  | cons i rest ih =>
    intro s hval
    obtain ⟨hop, hfl⟩ := hval i (List.mem_cons_self i rest)
    cases hse : SystemEvent.ofFlags i.flags with
    | none => rw [hse] at hfl; simp at hfl
    | some se =>
      have hp : ∃ st : ProcessStatus,
          s.process i = Except.ok (s.saveCollectionsManifestItem i, st) := by
        cases se with
        | CreateCollection =>
          refine ⟨ProcessStatus.Continue, ?_⟩
          simp [SystemEventFlush.process, hop, hse]
        | BeginDeleteCollection =>
          refine ⟨ProcessStatus.Skip, ?_⟩
          simp [SystemEventFlush.process, hop, hse]
        | DeleteCollectionHard =>
          refine ⟨ProcessStatus.Continue, ?_⟩
          simp [SystemEventFlush.process, hop, hse]
        | DeleteCollectionSoft =>
          refine ⟨ProcessStatus.Continue, ?_⟩
          simp [SystemEventFlush.process, hop, hse]
        | CollectionsSeparatorChanged =>
          refine ⟨ProcessStatus.Continue, ?_⟩
          simp [SystemEventFlush.process, hop, hse]
      obtain ⟨st, hp⟩ := hp
      rw [processAll_cons s _ i rest st hp]
      exact ih _ (fun j hj => hval j (List.mem_cons_of_mem i hj))

/-- C3: feeding a nonempty batch of valid system-event items through
`SystemEventFlush::process` retains (observable via
`getCollectionsManifestItem`) an item of the batch whose bySeqno is the
maximum bySeqno in the batch; and `saveCollectionsManifestItem` never lets an
item with a lower bySeqno replace the currently saved one. -/
theorem systemEventFlush_retains_highest_seqno (items : List Item)
    (hval : ∀ i ∈ items, i.operation = QueueOp.system_event ∧
      (SystemEvent.ofFlags i.flags).isSome)
    (hne : items ≠ []) :
    (∃ sf : SystemEventFlush,
      SystemEventFlush.processAll { collectionManifestItem := none } items =
        Except.ok sf ∧
      ∃ m : Item, sf.getCollectionsManifestItem = some m ∧ m ∈ items ∧
        ∀ i ∈ items, i.bySeqno ≤ m.bySeqno) ∧
    (∀ (s : SystemEventFlush) (cur i : Item),
      s.getCollectionsManifestItem = some cur → i.bySeqno < cur.bySeqno →
      s.saveCollectionsManifestItem i = s) := by
  constructor
  · obtain ⟨m, hm, hmem, hle, _⟩ :=
      foldSave_keeps_max items { collectionManifestItem := none } hne
    refine ⟨_, processAll_eq_foldSave items _ hval, m, hm, ?_, hle⟩
    rcases hmem with h | h
    · exact h
    · cases h
  · intro s cur i hc hlt
    have hc2 : s.collectionManifestItem = some cur := hc
    simp [SystemEventFlush.saveCollectionsManifestItem, hc2, lt_asymm hlt]

/-- Witness for C3 at a concrete two-event batch arriving out of seqno
order: the retained manifest item is one of the batch and dominates both
seqnos. -/
theorem systemEventFlush_retains_highest_seqno_witness :
    ∃ sf : SystemEventFlush,
      SystemEventFlush.processAll { collectionManifestItem := none }
          [SystemEventFactory.make SystemEvent.CreateCollection "meat" 0
            (some 2),
           SystemEventFactory.make SystemEvent.BeginDeleteCollection "meat" 0
            (some 1)] = Except.ok sf ∧
      ∃ m : Item, sf.getCollectionsManifestItem = some m ∧
        m ∈ [SystemEventFactory.make SystemEvent.CreateCollection "meat" 0
              (some 2),
             SystemEventFactory.make SystemEvent.BeginDeleteCollection "meat"
              0 (some 1)] ∧
        ∀ i ∈ [SystemEventFactory.make SystemEvent.CreateCollection "meat" 0
                (some 2),
               SystemEventFactory.make SystemEvent.BeginDeleteCollection
                "meat" 0 (some 1)], i.bySeqno ≤ m.bySeqno := by
  exact (systemEventFlush_retains_highest_seqno _
    (by intro i hi; fin_cases hi <;> exact ⟨rfl, rfl⟩) (by simp)).1

/-! ## C6 -/

lemma scan_push (c : String) (l : List CkptEntry) (e : CkptEntry)
    (p : Bool × Bool) :
    (l ++ [e]).foldl (ckptScanStep c) p =
      ckptScanStep c (l.foldl (ckptScanStep c) p) e := by
  simp [List.foldl_append]

lemma ckptInv_init (c : String) : CkptInv c VBucketCkpt.init := by
  refine ⟨List.nodup_nil, ?_, List.chain'_nil, ?_⟩
  · intro e he
    exact absurd he (List.not_mem_nil e)
  · simp [VBucketCkpt.init, ckptScanStep]

lemma ckptInv_apply (c : String) (st : VBucketCkpt) (op : CkptOp)
    (h : CkptInv c st) : CkptInv c (st.apply op) := by
  obtain ⟨hnd, hle, hch, hscan⟩ := h
  have hpush : ∀ e : CkptEntry, e.seqno = st.highSeqno + 1 →
      (∀ x ∈ st.entries ++ [e], x.seqno ≤ st.highSeqno + 1) ∧
      List.Chain' (fun a b => a.seqno < b.seqno) (st.entries ++ [e]) := by
    intro e he
    constructor
    · intro x hx
      rcases List.mem_append.mp hx with hx | hx
      · exact le_trans (hle x hx) (Nat.le_succ _)
      · simp only [List.mem_singleton] at hx
        subst hx
        omega
    · refine List.chain'_append.mpr ⟨hch, List.chain'_singleton e, ?_⟩
      intro x hx y hy
      simp only [List.head?_cons, Option.mem_def, Option.some.injEq] at hy
      subst hy
      have := hle x (List.mem_of_mem_getLast? hx)
      omega
  cases op with
  | create c2 =>
    by_cases hmem : c2 ∈ st.openCollections
    · have happ : st.apply (CkptOp.create c2) = st := by
        simp [VBucketCkpt.apply, hmem]
      rw [happ]
      exact ⟨hnd, hle, hch, hscan⟩
    · have happ : st.apply (CkptOp.create c2) =
          { openCollections := c2 :: st.openCollections
            highSeqno := st.highSeqno + 1
            entries := st.entries ++
              [{ op := CkptOp.create c2, seqno := st.highSeqno + 1 }] } := by
        simp [VBucketCkpt.apply, hmem]
      rw [happ]
      obtain ⟨hle2, hch2⟩ :=
        hpush { op := CkptOp.create c2, seqno := st.highSeqno + 1 } rfl
      refine ⟨List.nodup_cons.mpr ⟨hmem, hnd⟩, hle2, hch2, ?_⟩
      rw [scan_push, hscan]
      by_cases hcc : c2 = c
      · subst hcc
        simp [ckptScanStep]
      · simp [ckptScanStep, hcc, List.mem_cons, Ne.symm hcc]
  | beginDelete c2 =>
    by_cases hmem : c2 ∈ st.openCollections
    · have happ : st.apply (CkptOp.beginDelete c2) =
          { openCollections := st.openCollections.erase c2
            highSeqno := st.highSeqno + 1
            entries := st.entries ++
              [{ op := CkptOp.beginDelete c2,
                 seqno := st.highSeqno + 1 }] } := by
        simp [VBucketCkpt.apply, hmem]
      rw [happ]
      obtain ⟨hle2, hch2⟩ :=
        hpush { op := CkptOp.beginDelete c2, seqno := st.highSeqno + 1 } rfl
      refine ⟨hnd.erase c2, hle2, hch2, ?_⟩
      rw [scan_push, hscan]
      by_cases hcc : c2 = c
      · subst hcc
        have hout : c2 ∉ st.openCollections.erase c2 := by
          simp [List.Nodup.mem_erase_iff hnd]
        simp [ckptScanStep, hout]
      · have hiff : (c ∈ st.openCollections.erase c2) ↔
            (c ∈ st.openCollections) := by
          rw [List.Nodup.mem_erase_iff hnd]
          exact ⟨fun p => p.2, fun p => ⟨Ne.symm hcc, p⟩⟩
        simp [ckptScanStep, hcc, hiff]
    · have happ : st.apply (CkptOp.beginDelete c2) = st := by
        simp [VBucketCkpt.apply, hmem]
      rw [happ]
      exact ⟨hnd, hle, hch, hscan⟩
  | setKey c2 k =>
    by_cases hmem : c2 ∈ st.openCollections
    · have happ : st.apply (CkptOp.setKey c2 k) =
          { openCollections := st.openCollections
            highSeqno := st.highSeqno + 1
            entries := st.entries ++
              [{ op := CkptOp.setKey c2 k,
                 seqno := st.highSeqno + 1 }] } := by
        simp [VBucketCkpt.apply, hmem]
      rw [happ]
      obtain ⟨hle2, hch2⟩ :=
        hpush { op := CkptOp.setKey c2 k, seqno := st.highSeqno + 1 } rfl
      refine ⟨hnd, hle2, hch2, ?_⟩
      rw [scan_push, hscan]
      by_cases hcc : c2 = c
      · subst hcc
        simp [ckptScanStep, hmem]
      · simp [ckptScanStep, hcc]
    · have happ : st.apply (CkptOp.setKey c2 k) = st := by
        simp [VBucketCkpt.apply, hmem]
      rw [happ]
      exact ⟨hnd, hle, hch, hscan⟩

/-- C6: in any checkpoint produced by a sequence of collection
creates/begin-deletes and sets (each set accepted only while its collection
is open), and for every collection `c`, the `checkpoint_consistency` scan
succeeds: a set in `c` is never observed while `c` is not open — every set in
`c` lies strictly after a CreateCollection for `c` and strictly before any
following BeginDeleteCollection for `c` — and bySeqnos strictly increase
along the checkpoint. -/
theorem checkpoint_sets_only_while_open (ops : List CkptOp) (c : String) :
    checkpointConsistent c
      ((ops.foldl VBucketCkpt.apply VBucketCkpt.init).entries) = true ∧
    seqnosStrictlyIncreasing
      ((ops.foldl VBucketCkpt.apply VBucketCkpt.init).entries) := by
  have step : ∀ (l : List CkptOp) (st : VBucketCkpt),
      CkptInv c st → CkptInv c (l.foldl VBucketCkpt.apply st) := by
    intro l
    induction l with
    | nil => intro st h; exact h
    | cons o rest ih =>
      intro st h
      exact ih _ (ckptInv_apply c st o h)
  obtain ⟨_, _, hch, hscan⟩ := step ops VBucketCkpt.init (ckptInv_init c)
  exact ⟨by simp [checkpointConsistent, hscan], hch⟩

end EpEngine
